import Mathlib

/-!
Verification development for the bitbank-dca decision pipeline.

The Python sources are shallowly embedded: Python dicts become ordered
association lists (insertion order preserved, as in CPython), Python ints
become ℤ, Python floats become exact rationals ℚ, and fallible calls
return Except/Option values.  Each definition mirrors one function of
the repository, named after it.
-/

namespace DCA

/-- Python int() applied to an exact numeric value: truncation toward zero. -/
def pyInt (q : ℚ) : ℤ := if 0 ≤ q then ⌊q⌋ else ⌈q⌉

/-- Sum of the values of an association list, as in sum(d.values()). -/
def sumValues (l : List (String × ℤ)) : ℤ := (l.map Prod.snd).sum

/-- Key list of an association list, in insertion order, as in list(d.keys()). -/
def keysOf {β : Type} (l : List (String × β)) : List String := l.map Prod.fst

/-- Loop body of allocate_amounts: every pair except the last receives
int(total_jpy * norm[pair]); the last pair receives total_jpy - acc. -/
def allocLoop (total : ℤ) : List (String × ℚ) → ℤ → List (String × ℤ)
  | [], _ => []
  | [(p, _)], acc => [(p, total - acc)]
  | (p, w) :: q :: rest, acc =>
      let j := pyInt ((total : ℚ) * w)
      (p, j) :: allocLoop total (q :: rest) (acc + j)

/-- Embedding of allocate_amounts from app/services/allocation.py: an empty
weight dict gives an empty allocation; otherwise weights are normalized by
their sum (equal split when the sum is ≤ 0) and the loop assigns the
truncated shares with the remainder going to the last pair. -/
def allocate_amounts (weights : List (String × ℚ)) (total_jpy : ℤ) :
    List (String × ℤ) :=
  if weights.isEmpty then []
  else
    let s : ℚ := (weights.map Prod.snd).sum
    let norm : List (String × ℚ) :=
      if s ≤ 0 then weights.map (fun pw => (pw.1, 1 / (weights.length : ℚ)))
      else weights.map (fun pw => (pw.1, pw.2 / s))
    allocLoop total_jpy norm 0

theorem allocLoop_sum (total : ℤ) :
    ∀ (norm : List (String × ℚ)) (acc : ℤ), norm ≠ [] →
      sumValues (allocLoop total norm acc) = total - acc := by
  intro norm
  induction norm with
  | nil => intro acc h; exact absurd rfl h
  | cons hd tl ih =>
      intro acc _
      cases tl with
      | nil =>
          obtain ⟨p, w⟩ := hd
          simp [allocLoop, sumValues]
      | cons hd2 tl2 =>
          obtain ⟨p, w⟩ := hd
          have h2 : hd2 :: tl2 ≠ [] := by simp
          simp only [allocLoop, sumValues, List.map_cons, List.sum_cons]
          have := ih (acc + pyInt ((total : ℚ) * w)) h2
          simp only [sumValues] at this
          rw [this]; ring

/-- Claim C1: for nonnegative weights and a total budget ≥ 0,
allocate_amounts conserves the budget exactly: for a nonempty weights map
the allocation values sum to total_jpy (also when the weight sum is ≤ 0,
where the split is equal), and the empty weights map yields the empty
allocation, whose sum is 0. -/
theorem C1_allocate_amounts_conservation
    (weights : List (String × ℚ)) (total_jpy : ℤ)
    (hw : ∀ pw ∈ weights, 0 ≤ pw.2) (ht : 0 ≤ total_jpy) :
    (weights ≠ [] → sumValues (allocate_amounts weights total_jpy) = total_jpy) ∧
    (weights = [] →
      allocate_amounts weights total_jpy = [] ∧
      sumValues (allocate_amounts weights total_jpy) = 0) := by
  constructor
  · intro hne
    have hne2 : ¬ weights.isEmpty := by simpa [List.isEmpty_iff] using hne
    simp only [allocate_amounts, if_neg hne2]
    by_cases hle : ((weights.map Prod.snd).sum : ℚ) ≤ 0
    · rw [if_pos hle, allocLoop_sum total_jpy _ 0 (by simpa using hne)]; ring
    · rw [if_neg hle, allocLoop_sum total_jpy _ 0 (by simpa using hne)]; ring
  · intro he
    subst he
    simp [allocate_amounts, sumValues]

/-- Witness for C1 at the concrete input of the spec's Scenario A:
weights {btc_jpy: 0.7, eth_jpy: 0.3}, total 10000. -/
theorem C1_allocate_amounts_conservation_witness :
    (∀ pw ∈ [(("btc_jpy" : String), (7/10 : ℚ)), ("eth_jpy", 3/10)], 0 ≤ pw.2) ∧
    (0 : ℤ) ≤ 10000 ∧
    (([(("btc_jpy" : String), (7/10 : ℚ)), ("eth_jpy", 3/10)] ≠ []) →
      sumValues (allocate_amounts
        [("btc_jpy", 7/10), ("eth_jpy", 3/10)] 10000) = 10000) :=
  ⟨by norm_num [List.forall_mem_cons], by norm_num,
    (C1_allocate_amounts_conservation
      [("btc_jpy", 7/10), ("eth_jpy", 3/10)] 10000
      (by norm_num [List.forall_mem_cons]) (by norm_num)).1⟩

/-- Python allocs[p] for keys known to be present; absent keys give 0. -/
def lookupD (l : List (String × ℤ)) (p : String) : ℤ := (List.lookup p l).getD 0

/-- Python dict update result[p] += d, as a map over the association list. -/
def updAdd (p : String) (d : ℤ) (l : List (String × ℤ)) : List (String × ℤ) :=
  l.map (fun qv => (qv.1, if qv.1 = p then qv.2 + d else qv.2))

/-- dips = [p for p, f in dip_flags.items() if f and p in allocs]. -/
def dipList (dip_flags : List (String × Bool)) (allocs : List (String × ℤ)) :
    List String :=
  (dip_flags.filter (fun pf => pf.2 && (allocs.map Prod.fst).contains pf.1)).map
    Prod.fst

/-- Even-split loop of apply_dip_multiplier: each dip pair gains q; the last
one additionally gains bonus (1 when the divmod remainder is positive). -/
def evenLoop (q bonus : ℤ) : List String → List (String × ℤ) → List (String × ℤ)
  | [], res => res
  | [p], res => updAdd p (q + bonus) res
  | p :: d :: rest, res => evenLoop q bonus (d :: rest) (updAdd p q res)

/-- Proportional loop of apply_dip_multiplier: every dip pair except the last
gains int(extra * (allocs[p] / dip_base_sum)); the last gains extra - acc. -/
def propLoop (extra dsum : ℤ) (allocs : List (String × ℤ)) :
    List String → ℤ → List (String × ℤ) → List (String × ℤ)
  | [], _, res => res
  | [p], acc, res => updAdd p (extra - acc) res
  | p :: d :: rest, acc, res =>
      let add := pyInt ((extra : ℚ) * ((lookupD allocs p : ℚ) / (dsum : ℚ)))
      propLoop extra dsum allocs (d :: rest) (acc + add) (updAdd p add res)

/-- Embedding of apply_dip_multiplier from app/services/allocation.py. -/
def apply_dip_multiplier (dip_flags : List (String × Bool))
    (allocs : List (String × ℤ)) (base_total : ℤ) (multiplier : ℚ)
    (cap_total : ℤ) : List (String × ℤ) :=
  if base_total ≤ 0 ∨ multiplier ≤ 1 then allocs
  else
    let target_total := min (pyInt ((base_total : ℚ) * multiplier)) cap_total
    let extra := target_total - base_total
    if extra ≤ 0 then allocs
    else
      let dips := dipList dip_flags allocs
      if dips.isEmpty then allocs
      else
        let dip_base_sum := (dips.map (lookupD allocs)).sum
        if dip_base_sum ≤ 0 then
          evenLoop (Int.fdiv extra dips.length)
            (if 0 < Int.fmod extra dips.length then 1 else 0) dips allocs
        else propLoop extra dip_base_sum allocs dips 0 allocs

/-- Embedding of make_dip_flags from app/services/guards.py:
flag a pair iff its 24h change is ≤ -|threshold|. -/
def make_dip_flags (change24h_map : List (String × ℚ))
    (dip_threshold_abs : ℚ) : List (String × Bool) :=
  change24h_map.map (fun pc => (pc.1, decide (pc.2 ≤ -|dip_threshold_abs|)))

theorem keysOf_updAdd (p : String) (d : ℤ) (l : List (String × ℤ)) :
    keysOf (updAdd p d l) = keysOf l := by
  induction l with
  | nil => rfl
  | cons hd tl ih =>
      simp only [updAdd, keysOf, List.map_cons] at *
      by_cases h : hd.1 = p <;> simp [h, ih]

theorem sumValues_updAdd (p : String) (d : ℤ) :
    ∀ l : List (String × ℤ),
      sumValues (updAdd p d l) = sumValues l + d * ((keysOf l).count p)
  | [] => by simp [updAdd, sumValues, keysOf]
  | (k, v) :: tl => by
      have ih := sumValues_updAdd p d tl
      by_cases h : k = p
      · subst h
        simp only [updAdd, List.map_cons, if_pos rfl, sumValues, keysOf,
          List.sum_cons, List.count_cons_self] at *
        rw [ih]; push_cast; ring
      · have hb : (k == p) = false := beq_eq_false_iff_ne.mpr h
        simp only [updAdd, List.map_cons, if_neg h, sumValues, keysOf,
          List.sum_cons, List.count_cons, hb] at *
        rw [ih]; push_cast; ring

theorem lookup_updAdd (p a : String) (d : ℤ) :
    ∀ l : List (String × ℤ),
      List.lookup p (updAdd a d l) =
        if p = a then (List.lookup p l).map (· + d) else List.lookup p l
  | [] => by by_cases h : p = a <;> simp [updAdd, h]
  | (k, v) :: tl => by
      have ih := lookup_updAdd p a d tl
      by_cases hka : k = a
      · subst hka
        by_cases hpk : p = k
        · subst hpk
          simp [updAdd, List.lookup, ih]
        · have hb : (p == k) = false := beq_eq_false_iff_ne.mpr hpk
          simp only [updAdd, List.map_cons, List.lookup, hb] at *
          simpa [hpk] using ih
      · by_cases hpk : p = k
        · subst hpk
          have hpa : ¬ p = a := hka
          simp [updAdd, List.lookup, hka, hpa, ih]
        · have hb : (p == k) = false := beq_eq_false_iff_ne.mpr hpk
          simp only [updAdd, List.map_cons, List.lookup, hb] at *
          exact ih

theorem pyInt_eq_floor {q : ℚ} (h : 0 ≤ q) : pyInt q = ⌊q⌋ := if_pos h

theorem pyInt_nonneg {q : ℚ} (h : 0 ≤ q) : 0 ≤ pyInt q := by
  rw [pyInt_eq_floor h]
  exact Int.le_floor.mpr (by exact_mod_cast h)

theorem pyInt_le {q : ℚ} (h : 0 ≤ q) : (pyInt q : ℚ) ≤ q := by
  rw [pyInt_eq_floor h]; exact Int.floor_le q

theorem dipList_subset_keys (dip_flags : List (String × Bool))
    (allocs : List (String × ℤ)) :
    ∀ p ∈ dipList dip_flags allocs, p ∈ keysOf allocs := by
  intro p hp
  simp only [dipList, List.mem_map, List.mem_filter, Bool.and_eq_true] at hp
  obtain ⟨pf, ⟨_, _, hc⟩, he⟩ := hp
  subst he
  obtain ⟨x, hx⟩ : ∃ x, (pf.1, x) ∈ allocs := by simpa using hc
  exact List.mem_map.mpr ⟨(pf.1, x), hx, rfl⟩

theorem lookupD_nonneg {allocs : List (String × ℤ)}
    (h : ∀ pv ∈ allocs, 0 ≤ pv.2) (p : String) : 0 ≤ lookupD allocs p := by
  induction allocs with
  | nil => simp [lookupD]
  | cons hd tl ih =>
      obtain ⟨k, v⟩ := hd
      by_cases hp : p = k
      · subst hp
        simpa [lookupD, List.lookup] using h (p, v) (by simp)
      · have hb : (p == k) = false := beq_eq_false_iff_ne.mpr hp
        simp only [lookupD, List.lookup, hb] at *
        exact ih (fun pv hm => h pv (List.mem_cons_of_mem _ hm))

theorem keysOf_evenLoop (q b : ℤ) :
    ∀ (dips : List String) (res : List (String × ℤ)),
      keysOf (evenLoop q b dips res) = keysOf res
  | [], _ => rfl
  | [p], res => keysOf_updAdd p (q + b) res
  | p :: d :: rest, res => by
      rw [evenLoop, keysOf_evenLoop q b (d :: rest), keysOf_updAdd]

theorem keysOf_propLoop (extra dsum : ℤ) (allocs : List (String × ℤ)) :
    ∀ (dips : List String) (acc : ℤ) (res : List (String × ℤ)),
      keysOf (propLoop extra dsum allocs dips acc res) = keysOf res
  | [], _, _ => rfl
  | [p], acc, res => keysOf_updAdd p (extra - acc) res
  | p :: d :: rest, acc, res => by
      rw [propLoop, keysOf_propLoop extra dsum allocs (d :: rest), keysOf_updAdd]

theorem count_one_of_nodup_mem {p : String} {l : List String}
    (hn : l.Nodup) (hm : p ∈ l) : l.count p = 1 :=
  List.count_eq_one_of_mem hn hm

theorem sumValues_evenLoop (q b : ℤ) :
    ∀ (dips : List String) (res : List (String × ℤ)),
      (keysOf res).Nodup → (∀ p ∈ dips, p ∈ keysOf res) →
      sumValues (evenLoop q b dips res) =
        sumValues res + (if dips = [] then 0 else (dips.length : ℤ) * q + b)
  | [], res, _, _ => by simp [evenLoop]
  | [p], res, hn, hm => by
      rw [evenLoop, sumValues_updAdd,
        count_one_of_nodup_mem hn (hm p (by simp))]
      simp
  | p :: d :: rest, res, hn, hm => by
      rw [evenLoop, sumValues_evenLoop q b (d :: rest) _
        (by rwa [keysOf_updAdd])
        (by intro x hx; rw [keysOf_updAdd]; exact hm x (List.mem_cons_of_mem _ hx)),
        sumValues_updAdd, count_one_of_nodup_mem hn (hm p (by simp))]
      simp [List.length_cons]; ring

theorem sumValues_propLoop (extra dsum : ℤ) (allocs : List (String × ℤ)) :
    ∀ (dips : List String) (acc : ℤ) (res : List (String × ℤ)),
      dips ≠ [] → (keysOf res).Nodup → (∀ p ∈ dips, p ∈ keysOf res) →
      sumValues (propLoop extra dsum allocs dips acc res) =
        sumValues res + (extra - acc)
  | [], _, _, hne, _, _ => absurd rfl hne
  | [p], acc, res, _, hn, hm => by
      rw [propLoop, sumValues_updAdd,
        count_one_of_nodup_mem hn (hm p (by simp))]
      simp
  | p :: d :: rest, acc, res, _, hn, hm => by
      rw [propLoop]
      rw [sumValues_propLoop extra dsum allocs (d :: rest) _ _ (by simp)
        (by rwa [keysOf_updAdd])
        (by intro x hx; rw [keysOf_updAdd]; exact hm x (List.mem_cons_of_mem _ hx)),
        sumValues_updAdd, count_one_of_nodup_mem hn (hm p (by simp))]
      ring

theorem lookup_evenLoop_not_mem (q b : ℤ) :
    ∀ (dips : List String) (res : List (String × ℤ)) (p : String), p ∉ dips →
      List.lookup p (evenLoop q b dips res) = List.lookup p res
  | [], _, _, _ => rfl
  | [d], res, p, hp => by
      rw [evenLoop, lookup_updAdd, if_neg (by simpa using hp)]
  | d :: e :: rest, res, p, hp => by
      rw [evenLoop, lookup_evenLoop_not_mem q b (e :: rest) _ p
        (fun hm => hp (List.mem_cons_of_mem _ hm)),
        lookup_updAdd, if_neg (by simp at hp; exact hp.1)]

theorem lookup_propLoop_not_mem (extra dsum : ℤ) (allocs : List (String × ℤ)) :
    ∀ (dips : List String) (acc : ℤ) (res : List (String × ℤ)) (p : String),
      p ∉ dips →
      List.lookup p (propLoop extra dsum allocs dips acc res) = List.lookup p res
  | [], _, _, _, _ => rfl
  | [d], acc, res, p, hp => by
      rw [propLoop, lookup_updAdd, if_neg (by simpa using hp)]
  | d :: e :: rest, acc, res, p, hp => by
      rw [propLoop, lookup_propLoop_not_mem extra dsum allocs (e :: rest) _ _ p
        (fun hm => hp (List.mem_cons_of_mem _ hm)),
        lookup_updAdd, if_neg (by simp at hp; exact hp.1)]

/-- Entrywise relation: the key is unchanged and the value did not decrease. -/
def entryLE (a r : String × ℤ) : Prop := a.1 = r.1 ∧ a.2 ≤ r.2

theorem forall₂_updAdd {base res : List (String × ℤ)} (p : String) {d : ℤ}
    (hd : 0 ≤ d) (h : List.Forall₂ entryLE base res) :
    List.Forall₂ entryLE base (updAdd p d res) := by
  induction h with
  | nil => exact List.Forall₂.nil
  | cons hab _ ih =>
      refine List.Forall₂.cons ⟨hab.1, ?_⟩ ih
      dsimp only
      split
      · exact le_trans hab.2 (by omega)
      · exact hab.2

theorem forall₂_evenLoop {base : List (String × ℤ)} (q b : ℤ)
    (hq : 0 ≤ q) (hb : 0 ≤ b) :
    ∀ (dips : List String) (res : List (String × ℤ)),
      List.Forall₂ entryLE base res →
      List.Forall₂ entryLE base (evenLoop q b dips res)
  | [], _, h => h
  | [p], res, h => forall₂_updAdd p (by omega) h
  | p :: d :: rest, res, h =>
      forall₂_evenLoop q b hq hb (d :: rest) _ (forall₂_updAdd p hq h)

theorem forall₂_propLoop {base : List (String × ℤ)} (extra dsum : ℤ)
    (allocs : List (String × ℤ)) (hex : 0 < extra) (hds : 0 < dsum)
    (hnn : ∀ p, 0 ≤ lookupD allocs p) :
    ∀ (dips : List String) (acc : ℤ) (res : List (String × ℤ)),
      ((acc : ℚ) ≤ extra -
        extra * (((dips.map (lookupD allocs)).sum : ℤ) : ℚ) / dsum) →
      List.Forall₂ entryLE base res →
      List.Forall₂ entryLE base (propLoop extra dsum allocs dips acc res)
  | [], _, _, _, h => h
  | [p], acc, res, hinv, h => by
      rw [propLoop]
      refine forall₂_updAdd p ?_ h
      have ha : (0 : ℚ) ≤ (extra : ℚ) * (lookupD allocs p : ℚ) / (dsum : ℚ) :=
        div_nonneg (mul_nonneg (by exact_mod_cast hex.le)
          (by exact_mod_cast hnn p)) (by exact_mod_cast hds.le)
      have hq : (acc : ℚ) ≤ (extra : ℚ) := by
        simp only [List.map_cons, List.map_nil, List.sum_cons, List.sum_nil,
          add_zero] at hinv
        linarith
      have : acc ≤ extra := by exact_mod_cast hq
      omega
  | p :: d :: rest, acc, res, hinv, h => by
      rw [propLoop]
      have hann : (0 : ℚ) ≤ (lookupD allocs p : ℚ) := by exact_mod_cast hnn p
      have harg : (0 : ℚ) ≤ (extra : ℚ) * ((lookupD allocs p : ℚ) / (dsum : ℚ)) :=
        mul_nonneg (by exact_mod_cast hex.le)
          (div_nonneg hann (by exact_mod_cast hds.le))
      refine forall₂_propLoop extra dsum allocs hex hds hnn (d :: rest) _ _ ?_
        (forall₂_updAdd p (pyInt_nonneg harg) h)
      have hle : (pyInt ((extra : ℚ) * ((lookupD allocs p : ℚ) / (dsum : ℚ))) : ℚ)
          ≤ (extra : ℚ) * ((lookupD allocs p : ℚ) / (dsum : ℚ)) := pyInt_le harg
      have hsum : (((p :: d :: rest).map (lookupD allocs)).sum : ℤ)
          = lookupD allocs p + ((d :: rest).map (lookupD allocs)).sum := by
        simp
      rw [hsum, Int.cast_add] at hinv
      have key : (extra : ℚ) * (((lookupD allocs p : ℤ) : ℚ) +
            ((((d :: rest).map (lookupD allocs)).sum : ℤ) : ℚ)) / (dsum : ℚ)
          = (extra : ℚ) * ((lookupD allocs p : ℚ) / (dsum : ℚ))
            + (extra : ℚ) * ((((d :: rest).map (lookupD allocs)).sum : ℤ) : ℚ)
              / (dsum : ℚ) := by
        ring
      rw [key] at hinv
      rw [Int.cast_add]
      linarith

/-- Claim C2 as stated is false: with base_total equal to the allocation sum
but multiplier below 1, apply_dip_multiplier returns the base allocation
unchanged, whose sum 10 exceeds min(floor(10 * 0.5), 100) = 5. -/
theorem C2_dip_cap_counterexample :
    (10 : ℤ) = sumValues [(("a" : String), (10 : ℤ))] ∧
    ¬ (sumValues (apply_dip_multiplier [(("a" : String), true)]
          [(("a" : String), (10 : ℤ))] 10 (1/2) 100) ≤
        min ⌊(10 : ℚ) * (1/2)⌋ 100) := by
  constructor
  · with_unfolding_all rfl
  · intro hle
    rw [show sumValues (apply_dip_multiplier [(("a" : String), true)]
          [(("a" : String), (10 : ℤ))] 10 (1/2) 100) = 10 from by
        with_unfolding_all rfl,
      show ⌊(10 : ℚ) * (1/2)⌋ = 5 from by with_unfolding_all rfl] at hle
    omega

/-- Claim C2 (amended): if base_total equals the sum of the base allocation,
base_total ≥ 0, the multiplier is ≥ 1, cap_total ≥ base_total, and the
allocation keys are distinct, then the sum of the dip-adjusted allocation is
at most min(floor(base_total * multiplier), cap_total). -/
theorem C2_dip_cap (dip_flags : List (String × Bool))
    (allocs : List (String × ℤ)) (base_total cap_total : ℤ) (multiplier : ℚ)
    (hk : (keysOf allocs).Nodup) (hbt : base_total = sumValues allocs)
    (h0 : 0 ≤ base_total) (hm : 1 ≤ multiplier) (hc : base_total ≤ cap_total) :
    sumValues (apply_dip_multiplier dip_flags allocs base_total multiplier
        cap_total) ≤
      min ⌊(base_total : ℚ) * multiplier⌋ cap_total := by
  have hbm : (0 : ℚ) ≤ (base_total : ℚ) * multiplier :=
    mul_nonneg (by exact_mod_cast h0) (le_trans zero_le_one hm)
  have hfl : base_total ≤ ⌊(base_total : ℚ) * multiplier⌋ := by
    refine Int.le_floor.mpr ?_
    calc ((base_total : ℚ) : ℚ) = (base_total : ℚ) * 1 := by ring
    _ ≤ (base_total : ℚ) * multiplier :=
        mul_le_mul_of_nonneg_left hm (by exact_mod_cast h0)
  have hmin : base_total ≤ min ⌊(base_total : ℚ) * multiplier⌋ cap_total :=
    le_min hfl hc
  have hpy : pyInt ((base_total : ℚ) * multiplier) = ⌊(base_total : ℚ) * multiplier⌋ :=
    pyInt_eq_floor hbm
  simp only [apply_dip_multiplier, hpy]
  split_ifs with h1 h2 h3 h4 h5
  · rw [← hbt]; exact hmin
  · rw [← hbt]; exact hmin
  · rw [← hbt]; exact hmin
  · -- even split branch, positive divmod remainder: the last pair gains 1 more
    have hne : dipList dip_flags allocs ≠ [] := by
      simpa [List.isEmpty_iff] using h3
    rw [sumValues_evenLoop _ _ _ _ hk (dipList_subset_keys _ _), if_neg hne,
      ← hbt]
    set dips := dipList dip_flags allocs with hdips
    set n : ℤ := (dips.length : ℤ) with hn
    set extra := min ⌊(base_total : ℚ) * multiplier⌋ cap_total - base_total
      with hextra
    have hnpos : 0 < n := by
      have : dips.length ≠ 0 := fun hz => hne (List.length_eq_zero.mp hz)
      omega
    have hdm : n * Int.fdiv extra n + Int.fmod extra n = extra :=
      Int.fdiv_add_fmod extra n
    omega
  · -- even split branch, zero remainder
    have hne : dipList dip_flags allocs ≠ [] := by
      simpa [List.isEmpty_iff] using h3
    rw [sumValues_evenLoop _ _ _ _ hk (dipList_subset_keys _ _), if_neg hne,
      ← hbt]
    set dips := dipList dip_flags allocs with hdips
    set n : ℤ := (dips.length : ℤ) with hn
    set extra := min ⌊(base_total : ℚ) * multiplier⌋ cap_total - base_total
      with hextra
    have hnpos : 0 < n := by
      have : dips.length ≠ 0 := fun hz => hne (List.length_eq_zero.mp hz)
      omega
    have hmod : 0 ≤ Int.fmod extra n := Int.fmod_nonneg' extra hnpos
    have hdm : n * Int.fdiv extra n + Int.fmod extra n = extra :=
      Int.fdiv_add_fmod extra n
    omega
  · -- proportional branch
    have hne : dipList dip_flags allocs ≠ [] := by
      simpa [List.isEmpty_iff] using h3
    rw [sumValues_propLoop _ _ _ _ _ _ hne hk (dipList_subset_keys _ _), ← hbt]
    omega

/-- Witness for C2 at the spec's Scenario B shape: base {a: 7000, b: 3000},
dip on a, multiplier 1.5, cap 15000. -/
theorem C2_dip_cap_witness :
    sumValues (apply_dip_multiplier [(("a" : String), true), ("b", false)]
        [(("a" : String), (7000 : ℤ)), ("b", 3000)] 10000 (3/2) 15000)
      ≤ min ⌊(10000 : ℤ) * (3/2 : ℚ)⌋ 15000 := by
  have h := C2_dip_cap [(("a" : String), true), ("b", false)]
    [(("a" : String), (7000 : ℤ)), ("b", 3000)] 10000 15000 (3/2)
    (by simp [keysOf])
    (by with_unfolding_all rfl)
    (by omega) (by norm_num) (by omega)
  simpa using h

/-- Claim C3: evaluation of the even-split branch at a failing input.  With
dips a, b, c (combined base allocation 0), base_total 10, multiplier 1.5,
cap 15, the target is 15 and extra is 5 = 3*1 + remainder 2; the code adds
only 1 (not the remainder 2) to the last dip pair, so the result sums to 14,
not base_total + extra = 15. -/
theorem C3_even_split_remainder_eval :
    apply_dip_multiplier
        [(("a" : String), true), ("b", true), ("c", true)]
        [(("a" : String), (0 : ℤ)), ("b", 0), ("c", 0), ("d", 10)]
        10 (3/2) 15 =
      [(("a" : String), (1 : ℤ)), ("b", 1), ("c", 2), ("d", 10)] ∧
    sumValues (apply_dip_multiplier
        [(("a" : String), true), ("b", true), ("c", true)]
        [(("a" : String), (0 : ℤ)), ("b", 0), ("c", 0), ("d", 10)]
        10 (3/2) 15) = 14 ∧
    (14 : ℤ) ≠ 10 + 5 := by
  refine ⟨?_, ?_, by omega⟩
  · with_unfolding_all rfl
  · with_unfolding_all rfl

theorem not_mem_dipList (dip_flags : List (String × Bool))
    (allocs : List (String × ℤ)) (p : String)
    (h : ∀ f, (p, f) ∈ dip_flags → f = false) :
    p ∉ dipList dip_flags allocs := by
  intro hm
  simp only [dipList, List.mem_map, List.mem_filter, Bool.and_eq_true] at hm
  obtain ⟨pf, ⟨hmem, ht, _⟩, he⟩ := hm
  have hmem2 : (p, pf.2) ∈ dip_flags := he ▸ (show (pf.1, pf.2) ∈ dip_flags from hmem)
  have : pf.2 = false := h pf.2 hmem2
  rw [this] at ht
  exact Bool.false_ne_true ht

/-- Claim C9: apply_dip_multiplier leaves every non-dip-flagged pair at its
base allocation, and returns the base allocation unchanged whenever
base_total ≤ 0, or multiplier ≤ 1, or no pair is dip-flagged. -/
theorem C9_dip_frame (dip_flags : List (String × Bool))
    (allocs : List (String × ℤ)) (base_total : ℤ) (multiplier : ℚ)
    (cap_total : ℤ) :
    (base_total ≤ 0 →
      apply_dip_multiplier dip_flags allocs base_total multiplier cap_total
        = allocs) ∧
    (multiplier ≤ 1 →
      apply_dip_multiplier dip_flags allocs base_total multiplier cap_total
        = allocs) ∧
    ((∀ pf ∈ dip_flags, pf.2 = false) →
      apply_dip_multiplier dip_flags allocs base_total multiplier cap_total
        = allocs) ∧
    (∀ p : String, (∀ f, (p, f) ∈ dip_flags → f = false) →
      List.lookup p
          (apply_dip_multiplier dip_flags allocs base_total multiplier
            cap_total)
        = List.lookup p allocs) := by
  refine ⟨fun h => ?_, fun h => ?_, fun h => ?_, fun p hp => ?_⟩
  · simp only [apply_dip_multiplier, if_pos (Or.inl h)]
  · simp only [apply_dip_multiplier, if_pos (Or.inr h)]
  · have hd : dipList dip_flags allocs = [] := by
      have hfil : dip_flags.filter
          (fun pf => pf.2 && (allocs.map Prod.fst).contains pf.1) = [] := by
        refine List.filter_eq_nil_iff.mpr fun pf hm => ?_
        simp [h pf hm]
      unfold dipList
      rw [hfil]
      rfl
    simp [apply_dip_multiplier, hd]
  · have hnd : p ∉ dipList dip_flags allocs := not_mem_dipList _ _ p hp
    simp only [apply_dip_multiplier]
    split_ifs with h1 h2 h3 h4 h5
    · rfl
    · rfl
    · rfl
    · exact lookup_evenLoop_not_mem _ _ _ _ p hnd
    · exact lookup_evenLoop_not_mem _ _ _ _ p hnd
    · exact lookup_propLoop_not_mem _ _ _ _ _ _ p hnd

/-- Witness for C9: with multiplier exactly 1 the allocation is unchanged,
and a pair flagged false keeps its lookup value. -/
theorem C9_dip_frame_witness :
    apply_dip_multiplier [(("a" : String), true)] [(("a" : String), (5 : ℤ))]
        5 1 5 = [(("a" : String), (5 : ℤ))] ∧
    List.lookup ("b" : String)
        (apply_dip_multiplier [(("b" : String), false)]
          [(("b" : String), (7 : ℤ))] 7 2 14)
      = List.lookup ("b" : String) [(("b" : String), (7 : ℤ))] :=
  ⟨(C9_dip_frame [(("a" : String), true)] [(("a" : String), (5 : ℤ))]
      5 1 5).2.1 le_rfl,
    (C9_dip_frame [(("b" : String), false)] [(("b" : String), (7 : ℤ))]
      7 2 14).2.2.2 ("b" : String)
      (by intro f hf; simpa using hf)⟩

/-- Claim C10 as stated is false: with a negative base amount on a dip pair,
proportional reallocation assigns that pair a negative share, so its
allocation decreases (from -5 to -10). -/
theorem C10_counterexample :
    apply_dip_multiplier [(("a" : String), true), ("b", true)]
        [(("a" : String), (-5 : ℤ)), ("b", 10)] 5 2 10 =
      [(("a" : String), (-10 : ℤ)), ("b", 20)] ∧
    ¬ ((-5 : ℤ) ≤ -10) :=
  ⟨by with_unfolding_all rfl, by omega⟩

/-- Claim C10 (amended): apply_dip_multiplier always returns an allocation
with exactly the keys of the base allocation, in order; and when every base
amount is nonnegative, no pair's allocation decreases. -/
theorem C10_dip_keys_and_mono (dip_flags : List (String × Bool))
    (allocs : List (String × ℤ)) (base_total : ℤ) (multiplier : ℚ)
    (cap_total : ℤ) :
    keysOf (apply_dip_multiplier dip_flags allocs base_total multiplier
        cap_total) = keysOf allocs ∧
    ((∀ pv ∈ allocs, 0 ≤ pv.2) →
      List.Forall₂ entryLE allocs
        (apply_dip_multiplier dip_flags allocs base_total multiplier
          cap_total)) := by
  constructor
  · simp only [apply_dip_multiplier]
    split_ifs <;>
      first
        | rfl
        | rw [keysOf_evenLoop]
        | rw [keysOf_propLoop]
  · intro hnn
    have hself : List.Forall₂ entryLE allocs allocs :=
      List.forall₂_same.mpr fun a _ => ⟨rfl, le_rfl⟩
    simp only [apply_dip_multiplier]
    split_ifs with h1 h2 h3 h4 h5
    · exact hself
    · exact hself
    · exact hself
    · -- even branch, remainder positive
      refine forall₂_evenLoop _ _ ?_ (by omega) _ _ hself
      exact Int.fdiv_nonneg (by omega) (by positivity)
    · -- even branch, remainder zero
      refine forall₂_evenLoop _ _ ?_ le_rfl _ _ hself
      exact Int.fdiv_nonneg (by omega) (by positivity)
    · -- proportional branch
      have hds : 0 <
          ((dipList dip_flags allocs).map (lookupD allocs)).sum := by omega
      refine forall₂_propLoop _ _ _ (by omega) hds
        (lookupD_nonneg hnn) _ _ _ ?_ hself
      have hne : (((( dipList dip_flags allocs).map (lookupD allocs)).sum : ℤ) : ℚ)
          ≠ 0 := by exact_mod_cast hds.ne.symm
      rw [mul_div_assoc, div_self hne, mul_one]
      push_cast
      simp

/-- Witness for C10 at a concrete input with nonnegative base amounts. -/
theorem C10_dip_keys_and_mono_witness :
    List.Forall₂ entryLE [(("a" : String), (5 : ℤ))]
      (apply_dip_multiplier [(("a" : String), true)]
        [(("a" : String), (5 : ℤ))] 5 2 10) :=
  (C10_dip_keys_and_mono [(("a" : String), true)] [(("a" : String), (5 : ℤ))]
    5 2 10).2 (by norm_num [List.forall_mem_cons])

/-- Skip reason codes from app/core/errors.py. -/
inductive SkipReason where
  | SPREAD
  | VOL
  | SLIP
  | MIN_SIZE
  | INSUFF_JPY
  | KILL
  | DATA
  deriving DecidableEq

/-- Quote from app/core/models.py.  spread_pct is optional because
evaluate_pair_guard explicitly checks it against None. -/
structure Quote where
  pair : String
  price : ℚ
  best_bid : ℚ
  best_ask : ℚ
  spread_pct : Option ℚ
  ts_ms : ℤ
  deriving DecidableEq

/-- GuardParams from app/services/guards.py. -/
structure GuardParams where
  max_spread_pct : ℚ
  max_vol5m_pct : ℚ
  max_slip_pct : Option ℚ
  kill_switch : Bool := false
  deriving DecidableEq

/-- Embedding of evaluate_pair_guard from app/services/guards.py: ordered
checks kill switch, data integrity, spread, volatility; the slippage hook
is configured but has no rejection logic; otherwise allow with empty detail. -/
def evaluate_pair_guard (quote : Quote) (vol5m_abs : ℚ) (params : GuardParams) :
    Bool × Option SkipReason × List (String × ℚ) :=
  if params.kill_switch then (false, some SkipReason.KILL, [])
  else if quote.price ≤ 0 ∨ (quote.best_bid ≤ 0 ∧ quote.best_ask ≤ 0) then
    (false, some SkipReason.DATA,
      [("price", quote.price), ("best_bid", quote.best_bid),
        ("best_ask", quote.best_ask)])
  else if quote.spread_pct.isSome ∧
      params.max_spread_pct < quote.spread_pct.getD 0 then
    (false, some SkipReason.SPREAD,
      [("spread", quote.spread_pct.getD 0), ("limit", params.max_spread_pct)])
  else if params.max_vol5m_pct < vol5m_abs then
    (false, some SkipReason.VOL,
      [("vol5m_abs", vol5m_abs), ("limit", params.max_vol5m_pct)])
  else (true, none, [])

/-- Claim C4: the guard rules are evaluated in the fixed order kill switch,
data, spread, volatility; the first matching rule fixes the rejection
reason; the kill switch rejects regardless of every other input; and when
no rule matches the decision allows with empty detail. -/
theorem C4_guard_rule_order (quote : Quote) (vol5m_abs : ℚ)
    (params : GuardParams) :
    (params.kill_switch = true →
      evaluate_pair_guard quote vol5m_abs params
        = (false, some SkipReason.KILL, [])) ∧
    (params.kill_switch = false →
      (quote.price ≤ 0 ∨ (quote.best_bid ≤ 0 ∧ quote.best_ask ≤ 0)) →
      evaluate_pair_guard quote vol5m_abs params
        = (false, some SkipReason.DATA,
            [("price", quote.price), ("best_bid", quote.best_bid),
              ("best_ask", quote.best_ask)])) ∧
    (params.kill_switch = false →
      ¬ (quote.price ≤ 0 ∨ (quote.best_bid ≤ 0 ∧ quote.best_ask ≤ 0)) →
      ∀ sp, quote.spread_pct = some sp → params.max_spread_pct < sp →
      evaluate_pair_guard quote vol5m_abs params
        = (false, some SkipReason.SPREAD,
            [("spread", sp), ("limit", params.max_spread_pct)])) ∧
    (params.kill_switch = false →
      ¬ (quote.price ≤ 0 ∨ (quote.best_bid ≤ 0 ∧ quote.best_ask ≤ 0)) →
      ¬ (quote.spread_pct.isSome ∧
          params.max_spread_pct < quote.spread_pct.getD 0) →
      params.max_vol5m_pct < vol5m_abs →
      evaluate_pair_guard quote vol5m_abs params
        = (false, some SkipReason.VOL,
            [("vol5m_abs", vol5m_abs), ("limit", params.max_vol5m_pct)])) ∧
    (params.kill_switch = false →
      ¬ (quote.price ≤ 0 ∨ (quote.best_bid ≤ 0 ∧ quote.best_ask ≤ 0)) →
      ¬ (quote.spread_pct.isSome ∧
          params.max_spread_pct < quote.spread_pct.getD 0) →
      ¬ (params.max_vol5m_pct < vol5m_abs) →
      evaluate_pair_guard quote vol5m_abs params = (true, none, [])) := by
  refine ⟨fun hk => ?_, fun hk hd => ?_, fun hk hd sp hsp hlt => ?_,
    fun hk hd hs hv => ?_, fun hk hd hs hv => ?_⟩
  · simp [evaluate_pair_guard, hk]
  · simp [evaluate_pair_guard, hk, hd]
  · have hcond : quote.spread_pct.isSome ∧
        params.max_spread_pct < quote.spread_pct.getD 0 := by
      rw [hsp]; exact ⟨rfl, by simpa using hlt⟩
    simp only [evaluate_pair_guard, hk, Bool.false_eq_true, if_false,
      if_neg hd, if_pos hcond]
    rw [hsp]
    simp
  · simp only [evaluate_pair_guard, hk, Bool.false_eq_true, if_false,
      if_neg hd, if_neg hs, if_pos hv]
  · simp only [evaluate_pair_guard, hk, Bool.false_eq_true, if_false,
      if_neg hd, if_neg hs, if_neg hv]

/-- Witness for C4: concrete kill-switch rejection and a concrete allow. -/
theorem C4_guard_rule_order_witness :
    evaluate_pair_guard
        { pair := "btc_jpy", price := 100, best_bid := 99, best_ask := 100,
          spread_pct := some (1/100), ts_ms := 0 }
        0 { max_spread_pct := 1, max_vol5m_pct := 1, max_slip_pct := none,
            kill_switch := true }
      = (false, some SkipReason.KILL, []) ∧
    evaluate_pair_guard
        { pair := "btc_jpy", price := 100, best_bid := 99, best_ask := 100,
          spread_pct := some (1/100), ts_ms := 0 }
        0 { max_spread_pct := 1, max_vol5m_pct := 1, max_slip_pct := none,
            kill_switch := false }
      = (true, none, []) :=
  ⟨(C4_guard_rule_order
      { pair := "btc_jpy", price := 100, best_bid := 99, best_ask := 100,
        spread_pct := some (1/100), ts_ms := 0 }
      0 { max_spread_pct := 1, max_vol5m_pct := 1, max_slip_pct := none,
          kill_switch := true }).1 rfl,
    (C4_guard_rule_order
      { pair := "btc_jpy", price := 100, best_bid := 99, best_ask := 100,
        spread_pct := some (1/100), ts_ms := 0 }
      0 { max_spread_pct := 1, max_vol5m_pct := 1, max_slip_pct := none,
          kill_switch := false }).2.2.2.2 rfl
      (by push_neg; norm_num)
      (by
        intro hc
        have := hc.2
        norm_num at this)
      (by norm_num)⟩

/-- PairSpec from app/core/models.py. -/
structure PairSpec where
  pair : String
  min_size : ℚ
  size_step : ℚ
  price_step : ℚ
  deriving DecidableEq

/-- Round-half-even of an exact rational to an integer: the rounding applied
by Python when formatting a float with a fixed number of decimals. -/
def roundHalfEven (q : ℚ) : ℤ :=
  if q - ⌊q⌋ < 1/2 then ⌊q⌋
  else if 1/2 < q - ⌊q⌋ then ⌊q⌋ + 1
  else if ⌊q⌋ % 2 = 0 then ⌊q⌋ else ⌊q⌋ + 1

/-- Model of float(f-string with 12 decimals) on an exact rational: the value
rounded to 12 decimal places, as in the last line of round_qty_down. -/
def fmt12 (q : ℚ) : ℚ := (roundHalfEven (q * 10 ^ 12) : ℚ) / 10 ^ 12

/-- Embedding of round_qty_down from app/services/rounding.py: below
min_size the quantity is 0; otherwise floor to min_size plus whole
size_step increments, then snap to 12 decimal places. -/
def round_qty_down (spec : PairSpec) (raw_qty : ℚ) : ℚ :=
  if raw_qty < spec.min_size then 0
  else
    let steps := ⌊(raw_qty - spec.min_size) / spec.size_step⌋
    fmt12 (spec.min_size + steps * spec.size_step)

theorem roundHalfEven_intCast (n : ℤ) : roundHalfEven (n : ℚ) = n := by
  norm_num [roundHalfEven, Int.floor_intCast]

theorem fmt12_of_den12 {q : ℚ} (h : ∃ n : ℤ, q * 10 ^ 12 = n) : fmt12 q = q := by
  obtain ⟨n, hn⟩ := h
  rw [fmt12, hn, roundHalfEven_intCast, ← hn]
  field_simp

/-- Bounded-fuel binary logarithm on naturals (fuel-driven so that it
reduces inside the kernel). -/
def log2Fuel : ℕ → ℕ → ℕ
  | 0, _ => 0
  | fuel + 1, n => if n ≤ 1 then 0 else log2Fuel fuel (n / 2) + 1

/-- Floor of the base-2 logarithm of a positive rational: the exponent e
with 2^e ≤ q < 2^(e+1). -/
def floorLog2Q (q : ℚ) : ℤ :=
  let e0 : ℤ := (log2Fuel 4096 q.num.toNat : ℤ) - (log2Fuel 4096 q.den : ℤ)
  if (2 : ℚ) ^ (e0 + 1) ≤ q then e0 + 1
  else if (2 : ℚ) ^ e0 ≤ q then e0
  else e0 - 1

/-- Rounding of an exact rational to the nearest IEEE-754 binary64 value
(53-bit significand, ties to even), represented as the exact rational it
denotes; the normal range suffices for every value handled here. -/
def roundF64 (q : ℚ) : ℚ :=
  if q = 0 then 0
  else if 0 < q then
    (roundHalfEven (q * (2 : ℚ) ^ (52 - floorLog2Q q)) : ℚ) *
      (2 : ℚ) ^ (floorLog2Q q - 52)
  else
    - ((roundHalfEven ((-q) * (2 : ℚ) ^ (52 - floorLog2Q (-q))) : ℚ) *
        (2 : ℚ) ^ (floorLog2Q (-q) - 52))

/-- Python float subtraction: exact difference rounded to binary64. -/
def sub64 (a b : ℚ) : ℚ := roundF64 (a - b)

/-- Python float division: exact quotient rounded to binary64. -/
def div64 (a b : ℚ) : ℚ := roundF64 (a / b)

/-- Python float multiplication: exact product rounded to binary64. -/
def mul64 (a b : ℚ) : ℚ := roundF64 (a * b)

/-- Python float addition: exact sum rounded to binary64. -/
def add64 (a b : ℚ) : ℚ := roundF64 (a + b)

/-- round_qty_down from app/services/rounding.py replayed in IEEE-754
binary64 arithmetic, operation for operation: min_size, size_step and
raw_qty are the exact rational values of the doubles involved; steps is
math.floor of the double quotient (no epsilon is applied before flooring in
the source, unlike floor_to_step in the same module); the result is the
double parsed back from the 12-decimal f-string. -/
def round_qty_down_f64 (min_size size_step raw_qty : ℚ) : ℚ :=
  if raw_qty < min_size then 0
  else
    let steps := ⌊div64 (sub64 raw_qty min_size) size_step⌋
    roundF64 (fmt12 (add64 min_size (mul64 (steps : ℚ) size_step)))

set_option maxRecDepth 10000

/-- Claim C7: the code violates the claimed (and spec-documented) rounding
idempotence at the repository's own default pair spec.  With min_size =
size_step = double(0.0001) and raw quantity double(0.00035), the first
rounding yields double(0.0003); on the second rounding the double quotient
(double(0.0003) - double(0.0001)) / double(0.0001) evaluates to
1.9999999999999998 (the subtraction hits an exact round-to-even tie) and
floors to 1 because round_qty_down applies no epsilon before flooring, so
the result is double(0.0002) ≠ double(0.0003). -/
theorem C7_round_qty_down_float_divergence :
    round_qty_down_f64 (roundF64 (1/10000)) (roundF64 (1/10000))
        (roundF64 (35/100000))
      = roundF64 (3/10000) ∧
    round_qty_down_f64 (roundF64 (1/10000)) (roundF64 (1/10000))
        (round_qty_down_f64 (roundF64 (1/10000)) (roundF64 (1/10000))
          (roundF64 (35/100000)))
      = roundF64 (2/10000) ∧
    roundF64 (2/10000) ≠ roundF64 (3/10000) := by
  refine ⟨?_, ?_, fun h => absurd h (of_decide_eq_false ?_)⟩
  · with_unfolding_all rfl
  · with_unfolding_all rfl
  · with_unfolding_all rfl


/-- Pair name constants used by the run model and concrete scenarios. -/
def pairBtc : String := "btc_jpy"

def pairEth : String := "eth_jpy"

/-- Parsed depth response data (data.bids, data.asks, data.timestamp). -/
structure DepthData where
  bids : List (ℚ × ℚ)
  asks : List (ℚ × ℚ)
  timestamp : Option ℤ
  deriving DecidableEq

/-- Parsed ticker response data; every field may be absent from the JSON. -/
structure TickerData where
  buy : Option ℚ
  best_bid : Option ℚ
  sell : Option ℚ
  best_ask : Option ℚ
  last : Option ℚ
  timestamp : Option ℤ
  deriving DecidableEq

/-- The public price port: per-pair depth and ticker responses; an error
value models the underlying HTTP call or parse raising an exception. -/
structure PublicPricePort where
  depth : String → Except Unit DepthData
  ticker : String → Except Unit TickerData

/-- Embedding of _spread_pct from app/services/pricing.py. -/
def spread_pct_of (bid ask : ℚ) : ℚ :=
  if bid ≤ 0 ∨ ask ≤ 0 then 0
  else if 0 < (bid + ask) / 2 then (ask - bid) / ((bid + ask) / 2) else 0

/-- Embedding of _parse_depth_best: best bid and ask prices from the top of
the book, 0 when a side is empty. -/
def parse_depth_best (d : DepthData) : ℚ × ℚ :=
  ((d.bids.head?.map Prod.fst).getD 0, (d.asks.head?.map Prod.fst).getD 0)

/-- Embedding of _parse_ticker_best: bid falls back buy → best_bid → last,
ask falls back sell → best_ask → last, each defaulting to 0. -/
def parse_ticker_best (t : TickerData) : ℚ × ℚ × ℚ × ℤ :=
  ((t.buy.orElse fun _ => (t.best_bid.orElse fun _ => t.last)).getD 0,
    (t.sell.orElse fun _ => (t.best_ask.orElse fun _ => t.last)).getD 0,
    t.last.getD 0,
    t.timestamp.getD 0)

/-- Embedding of get_quote from app/services/pricing.py: depth first (used
only when both sides are positive), ticker as fallback; a ticker failure
propagates; no branch raises a domain error. -/
def get_quote (pub : PublicPricePort) (pair : String) : Except Unit Quote :=
  let depthQuote : Option Quote :=
    match pub.depth pair with
    | Except.error _ => none
    | Except.ok dj =>
        let bb := (parse_depth_best dj).1
        let ba := (parse_depth_best dj).2
        if 0 < bb ∧ 0 < ba then
          some ({ pair := pair, price := ba, best_bid := bb, best_ask := ba,
                  spread_pct := some (spread_pct_of bb ba),
                  ts_ms := dj.timestamp.getD 0 } : Quote)
        else none
  match depthQuote with
  | some q => Except.ok q
  | none =>
      match pub.ticker pair with
      | Except.error e => Except.error e
      | Except.ok tj =>
          let bb := (parse_ticker_best tj).1
          let ba := (parse_ticker_best tj).2.1
          let la := (parse_ticker_best tj).2.2.1
          let ts := (parse_ticker_best tj).2.2.2
          Except.ok ({ pair := pair,
                       price := if ba ≠ 0 then ba else la,
                       best_bid := bb, best_ask := ba,
                       spread_pct :=
                         some (if bb ≠ 0 ∧ ba ≠ 0 then
                           spread_pct_of bb ba else 0),
                       ts_ms := ts } : Quote)

/-- A port on which both price sources are unusable: the depth book is
empty and the ticker carries no prices at all. -/
def emptyPricePort : PublicPricePort where
  depth := fun _ => Except.ok ({ bids := [], asks := [], timestamp := none })
  ticker := fun _ => Except.ok
    ({ buy := none, best_bid := none, sell := none, best_ask := none,
       last := none, timestamp := none })

/-- Claim C8 as stated is false: when both sources are unusable, get_quote
does not fail with a DataError (the code defines no such failure path); it
returns a Quote with price 0, which only the guard rejects later. -/
theorem C8_get_quote_counterexample :
    get_quote emptyPricePort pairBtc
      = Except.ok ({ pair := pairBtc, price := 0, best_bid := 0, best_ask := 0,
                     spread_pct := some 0, ts_ms := 0 }) ∧
    get_quote emptyPricePort pairBtc ≠ Except.error () := by
  constructor
  · with_unfolding_all rfl
  · intro h
    rw [show get_quote emptyPricePort pairBtc
        = Except.ok ({ pair := pairBtc, price := 0, best_bid := 0,
                       best_ask := 0, spread_pct := some 0,
                       ts_ms := 0 }) from by
      with_unfolding_all rfl] at h
    exact Except.noConfusion h

/-- Claim C8 (amended): get_quote never fails with a domain error.  When the
depth book has positive best bid and ask it returns the depth quote (price
= best ask > 0); otherwise, whenever the ticker call succeeds, it returns a
ticker-based quote without raising — even when no price is obtainable (the
price is then 0, surfaced later by the guard DATA rule), and a bad spread
alone never causes a failure. -/
theorem C8_get_quote_total (pub : PublicPricePort) (pair : String) :
    (∀ d, pub.depth pair = Except.ok d →
      0 < (parse_depth_best d).1 → 0 < (parse_depth_best d).2 →
      get_quote pub pair = Except.ok
        ({ pair := pair, price := (parse_depth_best d).2,
           best_bid := (parse_depth_best d).1,
           best_ask := (parse_depth_best d).2,
           spread_pct := some
             (spread_pct_of (parse_depth_best d).1 (parse_depth_best d).2),
           ts_ms := d.timestamp.getD 0 })) ∧
    (∀ t, pub.ticker pair = Except.ok t →
      ∃ q : Quote, get_quote pub pair = Except.ok q) := by
  constructor
  · intro d hd hb ha
    simp only [get_quote, hd, if_pos (And.intro hb ha)]
  · intro t ht
    simp only [get_quote]
    cases hdep : pub.depth pair with
    | error e => simp only [ht]; exact ⟨_, rfl⟩
    | ok dj =>
        by_cases hpos : 0 < (parse_depth_best dj).1 ∧ 0 < (parse_depth_best dj).2
        · simp only [if_pos hpos]
          exact ⟨_, rfl⟩
        · simp only [if_neg hpos, ht]
          exact ⟨_, rfl⟩

/-- Witness for C8: a usable depth book yields the depth quote, and the
all-empty port still yields an ok quote. -/
theorem C8_get_quote_total_witness :
    (get_quote
        { depth := fun _ => Except.ok
            ({ bids := [(99, 1)], asks := [(101, 2)], timestamp := some 5 }),
          ticker := fun _ => Except.error () } pairBtc
      = Except.ok ({ pair := pairBtc, price := 101, best_bid := 99,
                     best_ask := 101,
                     spread_pct := some (spread_pct_of 99 101),
                     ts_ms := 5 })) ∧
    (∃ q : Quote, get_quote emptyPricePort pairBtc = Except.ok q) :=
  ⟨by
    have h := (C8_get_quote_total
      { depth := fun _ => Except.ok
          ({ bids := [(99, 1)], asks := [(101, 2)], timestamp := some 5 }),
        ticker := fun _ => Except.error () } pairBtc).1
      { bids := [(99, 1)], asks := [(101, 2)], timestamp := some 5 }
      rfl (by norm_num [parse_depth_best]) (by norm_num [parse_depth_best])
    simpa [parse_depth_best] using h,
    (C8_get_quote_total emptyPricePort pairBtc).2
      { buy := none, best_bid := none, sell := none, best_ask := none,
        last := none, timestamp := none } rfl⟩

/-- Reason stored in a PairExecutionReport: usually a SkipReason member,
but the live gate stores the raw string LIVE_DISABLED. -/
inductive ReasonVal where
  | enum (s : SkipReason)
  | rawStr (s : String)
  deriving DecidableEq

/-- Detail map values: numbers in most reports, a note string in the
live-disabled report. -/
inductive DVal where
  | num (q : ℚ)
  | txt (s : String)
  deriving DecidableEq

/-- Lift a numeric detail map into the report detail value type. -/
def numDict (l : List (String × ℚ)) : List (String × DVal) :=
  l.map (fun kv => (kv.1, DVal.num kv.2))

/-- Python dict merge of two literal dicts: keys of a in order with values
overridden by b where shared, then the keys of b not in a. -/
def mergeDict (a b : List (String × DVal)) : List (String × DVal) :=
  (a.map (fun kv =>
    match List.lookup kv.1 b with
    | some v => (kv.1, v)
    | none => kv)) ++
  b.filter (fun kv => ! ((a.map Prod.fst).contains kv.1))

/-- PairOrderPlan from app/services/orders.py. -/
structure PairOrderPlan where
  pair : String
  jpy_alloc : ℤ
  quote : Quote
  raw_qty : ℚ
  qty : ℚ
  deriving DecidableEq

/-- PairExecutionReport from app/services/orders.py. -/
structure PairExecutionReport where
  pair : String
  status : String
  reason : Option ReasonVal
  jpy_planned : ℤ
  quote_price : ℚ
  avg_price : Option ℚ
  executed_qty : ℚ
  details : List (String × DVal)
  deriving DecidableEq

/-- The default pair-spec table of app/core/specs.py; unregistered pairs
raise, modelled as none. -/
def get_pair_spec (pair : String) : Option PairSpec :=
  if pair = pairBtc then
    some { pair := pairBtc, min_size := 1/10000, size_step := 1/10000,
           price_step := 1 }
  else if pair = pairEth then
    some { pair := pairEth, min_size := 1/10000, size_step := 1/10000,
           price_step := 1 }
  else none

/-- Embedding of build_plan_for_pair from app/services/orders.py: resolve
the quote, compute the raw quantity (0 when the price is not positive) and
round it down. -/
def build_plan_for_pair (pub : PublicPricePort) (spec : PairSpec)
    (pair : String) (jpy_alloc : ℤ) : Except Unit PairOrderPlan :=
  match get_quote pub pair with
  | Except.error e => Except.error e
  | Except.ok quote =>
      let raw_qty := if 0 < quote.price then (jpy_alloc : ℚ) / quote.price
        else 0
      Except.ok ({ pair := pair, jpy_alloc := jpy_alloc, quote := quote,
                   raw_qty := raw_qty,
                   qty := round_qty_down spec raw_qty } : PairOrderPlan)

/-- The private trade port: the market-buy result (average fill price and
executed size, as normalized by the client) and the free JPY balance. -/
structure PrivateTradePort where
  market_buy : String → ℚ → ℚ × ℚ
  free_jpy : ℤ

/-- Embedding of execute_plan_for_pair from app/services/orders.py.
vol5m_abs is the fresh vol5m_pct sample the code takes, dca_live the
DCA_LIVE environment gate; none models the KeyError on an unknown pair. -/
def execute_plan_for_pair (vol5m_abs : ℚ) (dca_live : Bool)
    (prv : PrivateTradePort) (plan : PairOrderPlan)
    (guard_params : GuardParams) : Option PairExecutionReport :=
  match get_pair_spec plan.pair with
  | none => none
  | some spec =>
      if plan.qty ≤ 0 ∨ plan.qty < spec.min_size then
        some ({ pair := plan.pair, status := "SKIPPED",
                reason := some (ReasonVal.enum SkipReason.MIN_SIZE),
                jpy_planned := plan.jpy_alloc,
                quote_price := plan.quote.price,
                avg_price := none, executed_qty := 0,
                details := [("min_size", DVal.num spec.min_size),
                            ("size_step", DVal.num spec.size_step),
                            ("price_step", DVal.num spec.price_step)] }
          : PairExecutionReport)
      else
        let dec := evaluate_pair_guard plan.quote vol5m_abs guard_params
        if dec.1 = false then
          some ({ pair := plan.pair, status := "SKIPPED",
                  reason := dec.2.1.map ReasonVal.enum,
                  jpy_planned := plan.jpy_alloc,
                  quote_price := plan.quote.price,
                  avg_price := none, executed_qty := 0,
                  details := mergeDict (numDict dec.2.2)
                    [("spread", DVal.num (plan.quote.spread_pct.getD 0))] }
            : PairExecutionReport)
        else if dca_live = false then
          some ({ pair := plan.pair, status := "SKIPPED",
                  reason := some (ReasonVal.rawStr "LIVE_DISABLED"),
                  jpy_planned := plan.jpy_alloc,
                  quote_price := plan.quote.price,
                  avg_price := none, executed_qty := 0,
                  details := [("note",
                    DVal.txt "Live発注を無効化中。実行するには DCA_LIVE=1 を設定してください。")] }
            : PairExecutionReport)
        else
          let res := prv.market_buy plan.pair plan.qty
          some ({ pair := plan.pair, status := "FILLED", reason := none,
                  jpy_planned := plan.jpy_alloc,
                  quote_price := plan.quote.price,
                  avg_price := some res.1, executed_qty := res.2,
                  details := [("spread",
                    DVal.num (plan.quote.spread_pct.getD 0))] }
            : PairExecutionReport)

/-- Externally visible I/O steps of main.run, in order of occurrence. -/
inductive RunEvent where
  | quoteFetch (pair : String)
  | volFetch (pair : String)
  | chgFetch (pair : String)
  | balanceRead
  | planBuilt (pair : String)
  | guardEval (pair : String)
  deriving DecidableEq

/-- Configuration fields of app/config.py used by main.run. -/
structure Config where
  dca_total_jpy : ℤ
  dca_ratio_btc : ℚ
  dca_ratio_eth : ℚ
  dca_dip_multiplier : ℚ
  guard_max_spread_pct : ℚ
  guard_max_vol5m_pct : ℚ
  guard_dip_threshold : ℚ

/-- Environment of one run: the public port, the vol5m_pct and
change24h_pct samples the pricing helpers would return, the private port,
and the DCA_LIVE gate. -/
structure RunEnv where
  pub : PublicPricePort
  vol5m : String → ℚ
  chg24h : String → ℚ
  prv : PrivateTradePort
  dca_live : Bool

/-- PAIRS from app/main.py. -/
def PAIRS : List String := [pairBtc, pairEth]

/-- _weights_from_config from app/main.py. -/
def weightsFromConfig (cfg : Config) : List (String × ℚ) :=
  [(pairBtc, cfg.dca_ratio_btc), (pairEth, cfg.dca_ratio_eth)]

/-- _guard_params_from_config from app/main.py. -/
def guardParamsFromConfig (cfg : Config) : GuardParams :=
  { max_spread_pct := cfg.guard_max_spread_pct,
    max_vol5m_pct := cfg.guard_max_vol5m_pct,
    max_slip_pct := none, kill_switch := false }

/-- The dip-adjusted allocations main.run computes before its balance
check: base allocations from the configured weights, dip flags from the
24h changes, dip multiplier applied with cap int(total * multiplier). -/
def finalAllocs (cfg : Config) (env : RunEnv) : List (String × ℤ) :=
  apply_dip_multiplier
    (make_dip_flags (PAIRS.map (fun p => (p, env.chg24h p)))
      cfg.guard_dip_threshold)
    (allocate_amounts (weightsFromConfig cfg) cfg.dca_total_jpy)
    cfg.dca_total_jpy cfg.dca_dip_multiplier
    (pyInt ((cfg.dca_total_jpy : ℚ) * cfg.dca_dip_multiplier))

/-- Market snapshot loop of main.run: per pair, get_quote then the vol5m
and change24h samples; a quote failure aborts the run (exception). -/
def snapshotLoop (env : RunEnv) :
    List String → Option (List RunEvent × List (String × Quote))
  | [] => some ([], [])
  | p :: rest =>
      match get_quote env.pub p with
      | Except.error _ => none
      | Except.ok q =>
          match snapshotLoop env rest with
          | none => none
          | some (ev, qs) =>
              some (RunEvent.quoteFetch p :: RunEvent.volFetch p ::
                RunEvent.chgFetch p :: ev, (p, q) :: qs)

/-- Result of a run: the events performed, the per-pair reports collected,
and whether the insufficient-balance early return was taken. -/
structure RunResult where
  events : List RunEvent
  reports : List PairExecutionReport
  insufficient : Bool
  deriving DecidableEq

/-- Per-pair loop of main.run: plan (which fetches a fresh quote), guard on
the snapshot quote, then a skip report, a dry-run FILLED report, or live
execution; none models an uncaught exception. -/
def pairLoop (cfg : Config) (env : RunEnv) (dry_run : Bool)
    (quotes : List (String × Quote)) :
    List (String × ℤ) → Option (List RunEvent × List PairExecutionReport)
  | [] => some ([], [])
  | (pair, jpy_alloc) :: rest =>
      match get_pair_spec pair with
      | none => none
      | some spec =>
          match build_plan_for_pair env.pub spec pair jpy_alloc with
          | Except.error _ => none
          | Except.ok plan =>
              match List.lookup pair quotes with
              | none => none
              | some snapQuote =>
                  let gp := guardParamsFromConfig cfg
                  let dec := evaluate_pair_guard snapQuote (env.vol5m pair) gp
                  let rep : Option PairExecutionReport :=
                    if dec.1 = false then
                      some ({ pair := pair, status := "SKIPPED",
                              reason := dec.2.1.map ReasonVal.enum,
                              jpy_planned := jpy_alloc,
                              quote_price := plan.quote.price,
                              avg_price := none, executed_qty := 0,
                              details := mergeDict
                                [("spread",
                                   DVal.num (plan.quote.spread_pct.getD 0)),
                                 ("vol5m_abs", DVal.num (env.vol5m pair))]
                                (numDict dec.2.2) } : PairExecutionReport)
                    else if dry_run then
                      some ({ pair := pair, status := "FILLED",
                              reason := none,
                              jpy_planned := jpy_alloc,
                              quote_price := plan.quote.price,
                              avg_price := none, executed_qty := plan.qty,
                              details :=
                                [("spread",
                                   DVal.num (plan.quote.spread_pct.getD 0)),
                                 ("vol5m_abs", DVal.num (env.vol5m pair))] }
                        : PairExecutionReport)
                    else
                      execute_plan_for_pair (env.vol5m pair) env.dca_live
                        env.prv plan gp
                  match rep with
                  | none => none
                  | some r =>
                      match pairLoop cfg env dry_run quotes rest with
                      | none => none
                      | some (ev, reps) =>
                          some (RunEvent.quoteFetch pair ::
                            RunEvent.planBuilt pair ::
                            RunEvent.guardEval pair :: ev, r :: reps)

/-- Embedding of run from app/main.py: market snapshot for all pairs, dip
flags and dip-adjusted allocations, balance read, early return with an
empty report list when the free balance is below the allocation sum,
otherwise the per-pair loop; none models an uncaught exception. -/
def run (cfg : Config) (env : RunEnv) (dry_run : Bool) : Option RunResult :=
  match snapshotLoop env PAIRS with
  | none => none
  | some (ev1, quotes) =>
      let allocs := finalAllocs cfg env
      if env.prv.free_jpy < sumValues allocs then
        some { events := ev1 ++ [RunEvent.balanceRead], reports := [],
               insufficient := true }
      else
        match pairLoop cfg env dry_run quotes allocs with
        | none => none
        | some (ev2, reps) =>
            some { events := (ev1 ++ [RunEvent.balanceRead]) ++ ev2,
                   reports := reps, insufficient := false }

theorem snapshotLoop_events (env : RunEnv) :
    ∀ (ps : List String) (ev : List RunEvent) (qs : List (String × Quote)),
      snapshotLoop env ps = some (ev, qs) →
      ∀ e ∈ ev, ∃ p, e = RunEvent.quoteFetch p ∨ e = RunEvent.volFetch p ∨
        e = RunEvent.chgFetch p
  | [], ev, qs, h => by
      simp only [snapshotLoop, Option.some.injEq, Prod.mk.injEq] at h
      rw [← h.1]
      intro e he
      exact absurd he (List.not_mem_nil e)
  | p :: rest, ev, qs, h => by
      simp only [snapshotLoop] at h
      cases hq : get_quote env.pub p with
      | error e0 => rw [hq] at h; exact absurd h (by simp)
      | ok q0 =>
          rw [hq] at h
          cases hs : snapshotLoop env rest with
          | none => rw [hs] at h; exact absurd h (by simp)
          | some pr =>
              obtain ⟨ev1, qs1⟩ := pr
              rw [hs] at h
              simp only [Option.some.injEq, Prod.mk.injEq] at h
              rw [← h.1]
              intro e he
              simp only [List.mem_cons] at he
              rcases he with rfl | rfl | rfl | he
              · exact ⟨p, Or.inl rfl⟩
              · exact ⟨p, Or.inr (Or.inl rfl)⟩
              · exact ⟨p, Or.inr (Or.inr rfl)⟩
              · exact snapshotLoop_events env rest ev1 qs1 hs e he

/-- Claim C5 (amended): when the free balance is below the sum of the
dip-adjusted allocations, the run stops at the balance check with a single
report carrying no per-pair entries (so no report at all carries reason
INSUFF_JPY) and the shortfall flag set; no plan is built and no guard is
evaluated — but the market snapshot (quote, volatility and 24h-change
fetches for every pair) has already happened before the balance check. -/
theorem C5_insufficient_balance (cfg : Config) (env : RunEnv)
    (dry_run : Bool) (ev1 : List RunEvent) (quotes : List (String × Quote))
    (hsnap : snapshotLoop env PAIRS = some (ev1, quotes))
    (hbal : env.prv.free_jpy < sumValues (finalAllocs cfg env)) :
    run cfg env dry_run
      = some { events := ev1 ++ [RunEvent.balanceRead], reports := [],
               insufficient := true } ∧
    (∀ p, RunEvent.planBuilt p ∉ ev1 ++ [RunEvent.balanceRead]) ∧
    (∀ p, RunEvent.guardEval p ∉ ev1 ++ [RunEvent.balanceRead]) := by
  refine ⟨?_, ?_, ?_⟩
  · simp only [run, hsnap, if_pos hbal]
  · intro p hp
    rcases List.mem_append.mp hp with hp1 | hp1
    · obtain ⟨p2, hc⟩ := snapshotLoop_events env PAIRS ev1 quotes hsnap _ hp1
      rcases hc with hc | hc | hc <;> exact RunEvent.noConfusion hc
    · simp at hp1
  · intro p hp
    rcases List.mem_append.mp hp with hp1 | hp1
    · obtain ⟨p2, hc⟩ := snapshotLoop_events env PAIRS ev1 quotes hsnap _ hp1
      rcases hc with hc | hc | hc <;> exact RunEvent.noConfusion hc
    · simp at hp1

/-- Scenario E configuration: total budget 18000 split evenly, dip
multiplier 1 (no dip growth). -/
def cfg0 : Config :=
  { dca_total_jpy := 18000, dca_ratio_btc := 1/2, dca_ratio_eth := 1/2,
    dca_dip_multiplier := 1, guard_max_spread_pct := 1/250,
    guard_max_vol5m_pct := 1/50, guard_dip_threshold := 3/100 }

/-- A public port with a usable order book for every pair. -/
def port0 : PublicPricePort :=
  { depth := fun _ => Except.ok
      ({ bids := [(100, 1)], asks := [(101, 1)], timestamp := some 0 }),
    ticker := fun _ => Except.error () }

/-- Scenario E environment: free balance 15000 against allocations
summing to 18000. -/
def env0 : RunEnv :=
  { pub := port0, vol5m := fun _ => 0, chg24h := fun _ => 0,
    prv := { market_buy := fun _ _ => (0, 0), free_jpy := 15000 },
    dca_live := false }

/-- Claim C5 as stated is false at Scenario E: the balance 15000 is below
the 18000 total, yet quote work for every pair has already been performed
(the snapshot events are in the trace), and the emitted run report carries
no per-pair entries at all — so no pair is reported SKIPPED with reason
INSUFF_JPY. -/
theorem C5_insufficient_balance_counterexample :
    env0.prv.free_jpy < sumValues (finalAllocs cfg0 env0) ∧
    run cfg0 env0 true
      = some { events := [RunEvent.quoteFetch pairBtc,
                 RunEvent.volFetch pairBtc, RunEvent.chgFetch pairBtc,
                 RunEvent.quoteFetch pairEth, RunEvent.volFetch pairEth,
                 RunEvent.chgFetch pairEth, RunEvent.balanceRead],
               reports := [], insufficient := true } ∧
    RunEvent.quoteFetch pairBtc ∈ [RunEvent.quoteFetch pairBtc,
      RunEvent.volFetch pairBtc, RunEvent.chgFetch pairBtc,
      RunEvent.quoteFetch pairEth, RunEvent.volFetch pairEth,
      RunEvent.chgFetch pairEth, RunEvent.balanceRead] := by
  refine ⟨?_, ?_, by simp⟩
  · rw [show sumValues (finalAllocs cfg0 env0) = 18000 from by
      with_unfolding_all rfl]
    show (15000 : ℤ) < 18000
    omega
  · with_unfolding_all rfl

/-- The depth quote port0 yields for every pair name. -/
def q0 (p : String) : Quote :=
  { pair := p, price := 101, best_bid := 100, best_ask := 101,
    spread_pct := some (spread_pct_of 100 101), ts_ms := 0 }

/-- Witness for C5 at Scenario E: balance 15000 against total 18000. -/
theorem C5_insufficient_balance_witness :
    run cfg0 env0 true
      = some { events := [RunEvent.quoteFetch pairBtc,
                 RunEvent.volFetch pairBtc, RunEvent.chgFetch pairBtc,
                 RunEvent.quoteFetch pairEth, RunEvent.volFetch pairEth,
                 RunEvent.chgFetch pairEth] ++ [RunEvent.balanceRead],
               reports := [], insufficient := true } :=
  (C5_insufficient_balance cfg0 env0 true
    [RunEvent.quoteFetch pairBtc, RunEvent.volFetch pairBtc,
      RunEvent.chgFetch pairBtc, RunEvent.quoteFetch pairEth,
      RunEvent.volFetch pairEth, RunEvent.chgFetch pairEth]
    [(pairBtc, q0 pairBtc), (pairEth, q0 pairEth)]
    (by with_unfolding_all rfl)
    (by
      rw [show sumValues (finalAllocs cfg0 env0) = 18000 from by
        with_unfolding_all rfl]
      show (15000 : ℤ) < 18000
      omega)).1

/-- Claim C6 (amended): inside execute_plan_for_pair — the live execution
path — a rounded quantity that is 0 or below the pair's minimum size gives
SKIPPED with reason MIN_SIZE before the guard is consulted, for every guard
parameter set. -/
theorem C6_min_size_precedence (vol5m_abs : ℚ) (dca_live : Bool)
    (prv : PrivateTradePort) (plan : PairOrderPlan) (gp : GuardParams)
    (spec : PairSpec) (hs : get_pair_spec plan.pair = some spec)
    (hq : plan.qty ≤ 0 ∨ plan.qty < spec.min_size) :
    execute_plan_for_pair vol5m_abs dca_live prv plan gp
      = some ({ pair := plan.pair, status := "SKIPPED",
                reason := some (ReasonVal.enum SkipReason.MIN_SIZE),
                jpy_planned := plan.jpy_alloc,
                quote_price := plan.quote.price,
                avg_price := none, executed_qty := 0,
                details := [("min_size", DVal.num spec.min_size),
                            ("size_step", DVal.num spec.size_step),
                            ("price_step", DVal.num spec.price_step)] }
          : PairExecutionReport) := by
  simp only [execute_plan_for_pair, hs, if_pos hq]

/-- A concrete plan whose rounded quantity is 0 (kill-switch guard active,
so MIN_SIZE precedence over the guard is visible in the witness). -/
def planZeroQty : PairOrderPlan :=
  { pair := pairBtc, jpy_alloc := 10000,
    quote := { pair := pairBtc, price := 200000000, best_bid := 200000000,
               best_ask := 200000000, spread_pct := some 0, ts_ms := 0 },
    raw_qty := 1/20000, qty := 0 }

/-- Witness for C6: the zero-quantity plan is reported MIN_SIZE even with
the kill switch on. -/
theorem C6_min_size_precedence_witness :
    execute_plan_for_pair 0 false
        { market_buy := fun _ _ => (0, 0), free_jpy := 0 } planZeroQty
        { max_spread_pct := 1, max_vol5m_pct := 1, max_slip_pct := none,
          kill_switch := true }
      = some ({ pair := planZeroQty.pair, status := "SKIPPED",
                reason := some (ReasonVal.enum SkipReason.MIN_SIZE),
                jpy_planned := planZeroQty.jpy_alloc,
                quote_price := planZeroQty.quote.price,
                avg_price := none, executed_qty := 0,
                details := [("min_size", DVal.num (1/10000)),
                            ("size_step", DVal.num (1/10000)),
                            ("price_step", DVal.num 1)] }
          : PairExecutionReport) :=
  C6_min_size_precedence 0 false
    { market_buy := fun _ _ => (0, 0), free_jpy := 0 } planZeroQty
    { max_spread_pct := 1, max_vol5m_pct := 1, max_slip_pct := none,
      kill_switch := true }
    { pair := pairBtc, min_size := 1/10000, size_step := 1/10000,
      price_step := 1 }
    (by with_unfolding_all rfl) (Or.inl le_rfl)

/-- Configuration for the C6 counterexample: all budget on btc. -/
def cfg1 : Config :=
  { dca_total_jpy := 10000, dca_ratio_btc := 1, dca_ratio_eth := 0,
    dca_dip_multiplier := 1, guard_max_spread_pct := 1/250,
    guard_max_vol5m_pct := 1/50, guard_dip_threshold := 3/100 }

/-- A public port whose book price 2*10^8 makes 10000 JPY round to qty 0. -/
def port1 : PublicPricePort :=
  { depth := fun _ => Except.ok
      ({ bids := [(200000000, 1)], asks := [(200000000, 1)],
         timestamp := some 0 }),
    ticker := fun _ => Except.error () }

/-- Environment for the C6 counterexample: ample balance, clean guards. -/
def env1 : RunEnv :=
  { pub := port1, vol5m := fun _ => 0, chg24h := fun _ => 0,
    prv := { market_buy := fun _ _ => (0, 0), free_jpy := 100000 },
    dca_live := false }

/-- Claim C6 as stated is false in the dry-run path of main.run: the btc
plan rounds to quantity 0 (below the 0.0001 minimum), the guard passes, and
the dry-run report is FILLED with executed quantity 0 — not SKIPPED with
reason MIN_SIZE. -/
theorem C6_min_size_counterexample :
    (run cfg1 env1 true).map (fun r => r.reports.map
        (fun rep => (rep.pair, rep.status, rep.reason, rep.executed_qty)))
      = some [(pairBtc, "FILLED", none, 0), (pairEth, "FILLED", none, 0)] ∧
    (get_pair_spec pairBtc).map PairSpec.min_size = some (1/10000) ∧
    round_qty_down
        { pair := pairBtc, min_size := 1/10000, size_step := 1/10000,
          price_step := 1 } ((10000 : ℚ) / 200000000) = 0 := by
  refine ⟨?_, ?_, ?_⟩
  · with_unfolding_all rfl
  · with_unfolding_all rfl
  · with_unfolding_all rfl

end DCA
